import Mathlib

/-!
Verification of the HiddenLayer Databricks model scanner's scan-status state
machine and scheduling loop.

This file is a shallow embedding of the Python notebooks
`hl_monitor_models.py`, `hl_scan_model.py` and `hl_common.py`:

* Machine-level collaborators are modelled by explicit state: the model
  registry is a listing of models with their version numbers together with a
  total map from (model name, version number) to the server-side tag map
  (a version with no tags has the empty tag map, matching MLflow).
* Python `datetime` objects are modelled as integer Unix timestamps in
  seconds; `isoformat` renders a timestamp as a decimal string and
  `fromisoformat?` parses it back, returning `none` exactly where Python's
  `datetime.fromisoformat` would raise `ValueError`.
* Side effects (tag writes, job submissions, log prints, the notebook's
  early exit) are recorded in an event trace carried by the `World` state;
  an uncaught Python exception is an `Except.error`.
* `defaultdict(list)` is modelled as a total function from status strings to
  lists, whose default value is the empty list.

Each definition carries a comment pointing at the source lines it embeds.
-/

namespace HLScanner

/-- Scan status values shared across notebooks (hl_common.py lines 6-11). -/
def STATUS_UNSCANNED : String := "unscanned"

/-- Status value for a scan that has been submitted but not finished (hl_common.py line 7). -/
def STATUS_PENDING : String := "pending"

/-- Status value for a completed scan (hl_common.py line 8). -/
def STATUS_DONE : String := "done"

/-- Status value for a failed scan (hl_common.py line 9). -/
def STATUS_FAILED : String := "failed"

/-- Status value for a canceled scan (hl_common.py line 10). -/
def STATUS_CANCELED : String := "canceled"

/-- Status value for a skipped scan (hl_common.py line 11). -/
def STATUS_SKIPPED : String := "skipped"

/-- Sentinel for a model version with no hl_scan_status tag
(hl_monitor_models.py line 58: `STATUS_NONE = ""`). -/
def STATUS_NONE : String := ""

/-- Tag key for the scan status (hl_common.py line 18). -/
def HL_SCAN_STATUS : String := "hl_scan_status"

/-- Tag key for the threat level of a finished scan (hl_common.py line 19). -/
def HL_SCAN_THREAT_LEVEL : String := "hl_scan_threat_level"

/-- Tag key for the timestamp of the last transition (hl_common.py line 20). -/
def HL_SCAN_UPDATED_AT : String := "hl_scan_updated_at"

/-- Tag key for the scanner version (hl_common.py line 21). -/
def HL_SCAN_SCANNER_VERSION : String := "hl_scan_scanner_version"

/-- Tag key for the console URL of the scan (hl_common.py line 22). -/
def HL_SCAN_URL : String := "hl_scan_url"

/-- Tag key for an error message (hl_common.py line 23). -/
def HL_SCAN_MESSAGE : String := "hl_scan_message"

/-- Tag key for the Databricks scan job run id (hl_common.py line 24). -/
def HL_SCAN_RUN_ID : String := "hl_scan_run_id"

/-- Concurrency cap on simultaneously active scan jobs
(hl_monitor_models.py line 73: `MAX_ACTIVE_SCAN_JOBS = 10`). -/
def MAX_ACTIVE_SCAN_JOBS : Int := 10

/-- Timeout for HL scan jobs in minutes (hl_monitor_models.py line 68). -/
def HL_SCAN_NOTEBOOK_TIMEOUT_MINS : Int := 4800

/-- Model of a Python timestamp rendered by `datetime.isoformat`:
decimal seconds since the epoch. -/
def isoformat (t : Int) : String := toString t

/-- Numeric value of a decimal digit character, `none` for any other
character (48 is the code point of the zero digit). -/
def digitVal? (c : Char) : Option Nat :=
  if c.isDigit then some (c.toNat - 48) else none

/-- Parse a list of decimal digit characters into a number, failing on the
first non-digit. -/
def parseNatAux : List Char → Nat → Option Nat
  | [], acc => some acc
  | c :: cs, acc =>
    match digitVal? c with
    | none => none
    | some d => parseNatAux cs (acc * 10 + d)

/-- Model of `datetime.fromisoformat(...).timestamp()`: parses the decimal
string produced by `isoformat` back into a timestamp, and returns `none` on
a malformed string, exactly where Python's `datetime.fromisoformat` would
raise `ValueError`. -/
def fromisoformat? (s : String) : Option Int :=
  match s.toList with
  | [] => none
  | '-' :: cs => if cs.isEmpty then none else (parseNatAux cs 0).map (fun n => -(n : Int))
  | cs => (parseNatAux cs 0).map (fun n => (n : Int))

/-- An insertion-ordered tag dictionary, as returned by
`ModelVersion.tags` in MLflow. -/
abbrev TagMap := List (String × String)

/-- Dictionary lookup, `tags.get(k)`: the value at the first entry whose
key is `k`. -/
def tagGet : TagMap → String → Option String
  | [], _ => none
  | p :: m, k => if p.1 = k then some p.2 else tagGet m k

/-- Dictionary lookup with a default, `tags.get(k, d)`. -/
def tagGetD (m : TagMap) (k d : String) : String := (tagGet m k).getD d

/-- Dictionary upsert: the server-side effect of
`MlflowClient.set_model_version_tag` on one tag map (hl_common.py lines
177-183): replace the entry holding key `k` in place, appending a new entry
when the key is absent. -/
def tagSet : TagMap → String → String → TagMap
  | [], k, v => [(k, v)]
  | p :: m, k, v => if p.1 = k then (k, v) :: m else p :: tagSet m k v

/-- Dictionary delete: the server-side effect of
`MlflowClient.delete_model_version_tag` on one tag map
(hl_common.py lines 195-199). -/
def tagDelete : TagMap → String → TagMap
  | [], _ => []
  | p :: m, k => if p.1 = k then tagDelete m k else p :: tagDelete m k

/-- An MLflow `ModelVersion`: full model name, version number, and the tags
field, which is `none` when the producing API did not populate it
(hl_monitor_models.py lines 356-357 guard against that). -/
structure ModelVersion where
  name : String
  version : Nat
  tags : Option TagMap
  deriving DecidableEq, Repr

/-- The registry key of a model version: (full model name, version number). -/
abbrev MVKey := String × Nat

/-- Key of a `ModelVersion`. -/
def mvKey (mv : ModelVersion) : MVKey := (mv.name, mv.version)

/-- The model registry visible to the monitor: the Unity Catalog listing of
registered models in scope (each with its version numbers, in search order)
and the server-side tag map of every model version. A version that has
never been tagged maps to the empty tag map. -/
structure Registry where
  models : List (String × List Nat)
  tags : MVKey → TagMap

/-- Server-side fetch of the fresh tag map of a model version, as done by
`MlflowClient.get_model_version` (hl_common.py lines 105-112). -/
def regGetTags (reg : Registry) (key : MVKey) : TagMap := reg.tags key

/-- Replace the server-side tag map of one model version. -/
def regSetTags (reg : Registry) (key : MVKey) (m : TagMap) : Registry :=
  { reg with tags := fun k => if k = key then m else reg.tags k }

/-- Observable events of one run: tag writes, tag clears, scan job
submissions, scan engine invocations, init marker creation, the notebook's
early exit, entry into the timeout reaper, and diagnostic prints. -/
inductive Event where
  | tagWrite (key : MVKey) (k v : String)
  | tagClear (key : MVKey) (keep : List String)
  | submitJob (key : MVKey) (runId : Nat)
  | scanEngine (key : MVKey)
  | markInit
  | exitEarly (msg : String)
  | reaperRun
  | logError (msg : String)
  deriving DecidableEq, Repr

/-- The full mutable state threaded through a run: the registry, the
workspace init marker file (hl_monitor_models.py lines 196-223), the next
run id the job runner will hand out, and the event trace. -/
structure World where
  reg : Registry
  initMarker : Bool
  nextRunId : Nat
  events : List Event

/-- Embeds `set_model_version_tag` (hl_common.py lines 177-183): an upsert
of one tag on the server-side tag map of the model version. -/
def set_model_version_tag (w : World) (mv : ModelVersion) (k v : String) : World :=
  { w with reg := regSetTags w.reg (mvKey mv) (tagSet (regGetTags w.reg (mvKey mv)) k v),
           events := w.events ++ [Event.tagWrite (mvKey mv) k v] }

/-- The effect of the delete loop of `clear_tags` on one tag map: every key
of the fetched map that is not in `keep` is deleted, one delete per key
(hl_common.py lines 192-199). -/
def clearTagMap (m : TagMap) (keep : List String) : TagMap :=
  (m.map Prod.fst).foldl (fun acc k => if keep.contains k then acc else tagDelete acc k) m

/-- Embeds `clear_tags` (hl_common.py lines 185-199): re-fetch the fresh tag
map of the model version, then delete each of its tags whose key is not in
`keep`. -/
def clear_tags (w : World) (mv : ModelVersion) (keep : List String) : World :=
  let fresh := regGetTags w.reg (mvKey mv)
  { w with reg := regSetTags w.reg (mvKey mv) (clearTagMap fresh keep),
           events := w.events ++ [Event.tagClear (mvKey mv) keep] }

/-- Append a diagnostic print to the event trace (the `print(...)` calls in
`handle_job_timeouts`). -/
def logMsg (w : World) (m : String) : World :=
  { w with events := w.events ++ [Event.logError m] }

/-- The status-to-versions dictionary built by the Status Index. Modelled as
a total function because the Python value is a `defaultdict(list)`
(hl_monitor_models.py lines 161-162): every status key is queryable and
defaults to the empty list. -/
abbrev StatusDict := String → List ModelVersion

/-- The empty `defaultdict(list)`. -/
def dempty : StatusDict := fun _ => []

/-- The effect of `dikt[status].append(mv)` on a `defaultdict(list)`. -/
def dappend (d : StatusDict) (k : String) (mv : ModelVersion) : StatusDict :=
  fun s => if s = k then d s ++ [mv] else d s

/-- The inner loop of `get_model_versions_by_status` that resolves the
latest version of one model: starting from `max_version = -1` every version
number strictly greater than the running maximum replaces it
(hl_monitor_models.py lines 170-175). Returns `none` when the model has no
versions. -/
def latestVersion (vs : List Nat) : Option Nat :=
  vs.foldl (fun acc v =>
    match acc with
    | none => some v
    | some m => if v > m then some v else acc) none

/-- Embeds `get_model_versions_by_status` (hl_monitor_models.py lines
157-182): for every registered model in scope, resolve its latest version,
fetch that version's tags, read its status (absent tag mapping to
`STATUS_NONE`), and append the version to the bucket of its status if the
status is among the requested ones or no statuses were requested. -/
def get_model_versions_by_status (reg : Registry) (statuses : List String) : StatusDict :=
  reg.models.foldl (fun dikt mo =>
    match latestVersion mo.2 with
    | none => dikt
    | some v =>
      let tags := regGetTags reg (mo.1, v)
      let status := tagGetD tags HL_SCAN_STATUS STATUS_NONE
      if statuses.contains status || statuses.isEmpty then
        dappend dikt status { name := mo.1, version := v, tags := some tags }
      else dikt) dempty

/-- Embeds `mark_init_done` (hl_monitor_models.py lines 200-206): drop the
persistent init marker file in the workspace folder. -/
def mark_init_done (w : World) : World :=
  { w with initMarker := true, events := w.events ++ [Event.markInit] }

/-- Embeds `init` (hl_monitor_models.py lines 231-238): take a fresh
snapshot of all statuses, tag every untagged latest version with
`hl_scan_status = unscanned` and `hl_scan_updated_at = now`, then write the
init marker. -/
def init (now : Int) (w : World) : World :=
  let mv_dict := get_model_versions_by_status w.reg []
  let versions := mv_dict STATUS_NONE
  let w := versions.foldl (fun w mv =>
    set_model_version_tag (set_model_version_tag w mv HL_SCAN_STATUS STATUS_UNSCANNED)
      mv HL_SCAN_UPDATED_AT (isoformat now)) w
  mark_init_done w

/-- Embeds `run_notebook` (hl_monitor_models.py lines 270-300): create and
launch a Databricks job without waiting, returning the run id handed out by
the job runner. -/
def run_notebook (w : World) (key : MVKey) : World × Nat :=
  let runId := w.nextRunId
  ({ w with nextRunId := w.nextRunId + 1,
            events := w.events ++ [Event.submitJob key runId] }, runId)

/-- Embeds `scan_model` (hl_monitor_models.py lines 323-337): submit the
scan job for the model version via `run_notebook`, then save the returned
run id as the `hl_scan_run_id` tag. -/
def scan_model (w : World) (mv : ModelVersion) : World × Nat :=
  let wr := run_notebook w (mvKey mv)
  (set_model_version_tag wr.1 mv HL_SCAN_RUN_ID (toString wr.2), wr.2)

/-- Embeds the admission computation of the main poll cell
(hl_monitor_models.py lines 420-424): with `cap` instantiated at
`MAX_ACTIVE_SCAN_JOBS`, compute `max_new_jobs = max(cap - num_active, 0)`
and `num_new_jobs = min(max_new_jobs, len(candidates))`, and return the
candidates indexed by `range(num_new_jobs)`. -/
def pickNewJobs (candidates : List ModelVersion) (numActive : Nat) (cap : Int) : List ModelVersion :=
  let maxNewJobs : Int := max (cap - (numActive : Int)) 0
  let numNewJobs : Int := min maxNewJobs (candidates.length : Int)
  (List.range numNewJobs.toNat).filterMap (fun i => candidates[i]?)

/-- The body of the `handle_job_timeouts` loop for one pending model version
(hl_monitor_models.py lines 355-377). Missing tags, a non-pending status, or
a missing `hl_scan_updated_at` tag are logged and skipped; an unparseable
`hl_scan_updated_at` raises `ValueError` out of the loop (line 368 has no
try/except); an expired entry is cleared except `hl_scan_run_id` and
re-tagged failed with a message and a fresh timestamp. -/
def reapOne (now : Int) (timeout_minutes : Int) (w : World) (mv : ModelVersion) :
    Except String World :=
  match mv.tags with
  | none => Except.ok (logMsg w ("Error: tags are missing for model version " ++ mv.name ++
      " version " ++ toString mv.version ++ ". Skipping stale job management."))
  | some tags =>
    let status := tagGet tags HL_SCAN_STATUS
    if status ≠ some STATUS_PENDING then
      Except.ok (logMsg w ("Error: model version " ++ mv.name ++ " version " ++
        toString mv.version ++ " is not in pending state. Skipping stale job management."))
    else
      match tagGet tags HL_SCAN_UPDATED_AT with
      | none => Except.ok (logMsg w ("Error: model version " ++ mv.name ++ " version " ++
          toString mv.version ++ " is missing the hl_scan_updated_at tag. Skipping stale job management."))
      | some updated_at_tag =>
        match fromisoformat? updated_at_tag with
        | none => Except.error ("ValueError: Invalid isoformat string: " ++ updated_at_tag)
        | some updated_at =>
          if now - updated_at > timeout_minutes * 60 then
            let w := clear_tags w mv [HL_SCAN_RUN_ID]
            let w := set_model_version_tag w mv HL_SCAN_STATUS STATUS_FAILED
            let w := set_model_version_tag w mv HL_SCAN_MESSAGE "Scan job timed out"
            Except.ok (set_model_version_tag w mv HL_SCAN_UPDATED_AT (isoformat now))
          else Except.ok w

/-- Embeds `handle_job_timeouts` (hl_monitor_models.py lines 352-377): run
`reapOne` over the pending list in order; an uncaught exception aborts the
remaining iterations. -/
def handle_job_timeouts (now : Int) (w : World) (pending_model_versions : List ModelVersion)
    (timeout_minutes : Int) : Except String World :=
  pending_model_versions.foldlM (fun w mv => reapOne now timeout_minutes w mv) w

/-- Embeds the main poll cell of hl_monitor_models.py (lines 405-429):
snapshot the none and pending buckets, run `init` if the marker is absent,
exit early when the snapshot's none bucket is empty, submit scans for the
admitted prefix of the none bucket, and finally reap timed-out pending
entries. The `Event.reaperRun` event marks the call into
`handle_job_timeouts` at line 429. -/
def pollCycle (now : Int) (w : World) : Except String World :=
  let mv_dict := get_model_versions_by_status w.reg [STATUS_NONE, STATUS_PENDING]
  let w := if w.initMarker then w else init now w
  let num_new_models := (mv_dict STATUS_NONE).length
  if num_new_models = 0 then
    Except.ok { w with events := w.events ++ [Event.exitEarly "There are no new model versions to scan."] }
  else
    let newJobs := pickNewJobs (mv_dict STATUS_NONE) (mv_dict STATUS_PENDING).length
      MAX_ACTIVE_SCAN_JOBS
    let w := newJobs.foldl (fun w mv => (scan_model w mv).1) w
    let w := { w with events := w.events ++ [Event.reaperRun] }
    handle_job_timeouts now w (mv_dict STATUS_PENDING) HL_SCAN_NOTEBOOK_TIMEOUT_MINS

/-- The structured scan result returned by the HiddenLayer scan engine
(hl_scan_model.py lines 260-270 read these fields). -/
structure ScanResults where
  status : String
  severity : String
  end_time : String
  version : String
  model_id : String
  scan_id : String
  deriving DecidableEq, Repr

/-- Embeds `tag_for_scanning` (hl_scan_model.py lines 129-132): write
`hl_scan_status = pending` and `hl_scan_updated_at = now` on the model
version about to be submitted to the scanner. -/
def tag_for_scanning (now : Int) (w : World) (mv : ModelVersion) : World :=
  set_model_version_tag (set_model_version_tag w mv HL_SCAN_STATUS STATUS_PENDING)
    mv HL_SCAN_UPDATED_AT (isoformat now)

/-- Embeds `fail_and_exit_with_message` (hl_scan_model.py lines 147-156):
clear all tags except `hl_scan_run_id`, write the failed status, message and
timestamp, and raise an exception whose text is returned here alongside the
final world. -/
def fail_and_exit_with_message (now : Int) (w : World) (mv : ModelVersion) (message : String) :
    World × String :=
  let w := clear_tags w mv [HL_SCAN_RUN_ID]
  let w := set_model_version_tag w mv HL_SCAN_STATUS STATUS_FAILED
  let w := set_model_version_tag w mv HL_SCAN_MESSAGE message
  let w := set_model_version_tag w mv HL_SCAN_UPDATED_AT (isoformat now)
  (w, "Scanning model " ++ mv.name ++ ", version " ++ toString mv.version ++ " failed: " ++ message)

/-- Embeds `tag_model_version_with_scan_results` (hl_scan_model.py lines
260-270): clear all tags (no keep list), write the result status, and on a
`done` status also write threat level, timestamp, scanner version, and the
console URL. -/
def tag_model_version_with_scan_results (w : World) (mv : ModelVersion) (sr : ScanResults)
    (hl_console_url : String) : World :=
  let w := clear_tags w mv []
  let w := set_model_version_tag w mv HL_SCAN_STATUS sr.status
  if sr.status == "done" then
    let w := set_model_version_tag w mv HL_SCAN_THREAT_LEVEL sr.severity
    let w := set_model_version_tag w mv HL_SCAN_UPDATED_AT sr.end_time
    let w := set_model_version_tag w mv HL_SCAN_SCANNER_VERSION sr.version
    set_model_version_tag w mv HL_SCAN_URL
      (hl_console_url ++ "/model-details/" ++ sr.model_id ++ "/scans/" ++ sr.scan_id)
  else w

/-- The tag-relevant happy path of the scan job's main cell
(hl_scan_model.py lines 295-315): once the job is running and the artifacts
are downloaded, `tag_for_scanning` writes the pending tags, then the scan
engine is invoked, then the results are tagged. -/
def scan_job_main (now : Int) (w : World) (mv : ModelVersion) (sr : ScanResults)
    (hl_console_url : String) : World :=
  let w := tag_for_scanning now w mv
  let w := { w with events := w.events ++ [Event.scanEngine (mvKey mv)] }
  tag_model_version_with_scan_results w mv sr hl_console_url

/-!
Dictionary lemmas for the tag maps and the registry.
-/

/-- Lookup after an upsert: the written key reads back the written value,
every other key is unaffected. -/
theorem tagGet_tagSet (m : TagMap) (k v k' : String) :
    tagGet (tagSet m k v) k' = if k' = k then some v else tagGet m k' := by
  induction m with
  | nil =>
    by_cases hk : k' = k
    · subst hk; simp [tagSet, tagGet]
    · have hk' : ¬k = k' := fun h => hk h.symm
      simp [tagSet, tagGet, hk, hk']
  | cons p m ih =>
    by_cases hp : p.1 = k
    · by_cases hk : k' = k
      · subst hk; simp [tagSet, tagGet, hp]
      · have hpk : ¬p.1 = k' := fun h => hk (h.symm.trans hp)
        have hk' : ¬k = k' := fun h => hk h.symm
        simp [tagSet, tagGet, hp, hk, hpk, hk']
    · by_cases hk : k' = k
      · subst hk; simp [tagSet, tagGet, hp, ih]
      · by_cases hpk : p.1 = k' <;> simp [tagSet, tagGet, hp, hpk, hk, ih]

/-- Lookup after a delete: the deleted key reads back nothing, every other
key is unaffected. -/
theorem tagGet_tagDelete (m : TagMap) (k k' : String) :
    tagGet (tagDelete m k) k' = if k' = k then none else tagGet m k' := by
  induction m with
  | nil => by_cases hk : k' = k <;> simp [tagDelete, tagGet, hk]
  | cons p m ih =>
    by_cases hp : p.1 = k
    · by_cases hk : k' = k
      · subst hk; simp [tagDelete, hp, ih]
      · have hpk : ¬p.1 = k' := fun h => hk (h.symm.trans hp)
        have hk' : ¬k = k' := fun h => hk h.symm
        simp [tagDelete, tagGet, hp, hk, hpk, hk', ih]
    · by_cases hk : k' = k
      · subst hk; simp [tagDelete, tagGet, hp, ih]
      · by_cases hpk : p.1 = k' <;> simp [tagDelete, tagGet, hp, hpk, hk, ih]

/-- Lookup in a filter whose predicate only inspects the key. -/
theorem tagGet_filter_key (m : TagMap) (f : String → Bool) (k : String) :
    tagGet (m.filter (fun p => f p.1)) k = if f k then tagGet m k else none := by
  induction m with
  | nil => by_cases hfk : f k <;> simp [tagGet, hfk]
  | cons p m ih =>
    by_cases hf : f p.1
    · by_cases hpk : p.1 = k
      · simp [List.filter_cons, hf, tagGet, hpk, hpk ▸ hf]
      · simp [List.filter_cons, hf, tagGet, hpk, ih]
    · by_cases hpk : p.1 = k
      · have hfk : f k = false := by
          rw [← hpk]; simpa using hf
        simp [List.filter_cons, hf, ih, hfk]
      · by_cases hfk : f k <;> simp [List.filter_cons, hf, ih, hfk, tagGet, hpk]

theorem tagDelete_eq_filter (m : TagMap) (k : String) :
    tagDelete m k = m.filter (fun p => p.1 != k) := by
  induction m with
  | nil => rfl
  | cons p m ih =>
    by_cases hp : p.1 = k <;> simp [tagDelete, List.filter_cons, hp, ih]

theorem foldl_tagDelete_eq_filter (keep : List String) (ks : List String) (acc : TagMap) :
    ks.foldl (fun acc k => if keep.contains k then acc else tagDelete acc k) acc
      = acc.filter (fun p => keep.contains p.1 || !(ks.contains p.1)) := by
  induction ks generalizing acc with
  | nil => simp
  | cons k ks ih =>
    rw [List.foldl_cons]
    by_cases hk : keep.contains k
    · rw [if_pos hk, ih]
      apply List.filter_congr
      intro p hp
      by_cases hpk : p.1 = k
      · have hm : p.1 ∈ keep := by rw [hpk]; simpa using hk
        simp [hm]
      · simp [List.contains_cons, hpk]
    · rw [if_neg hk, tagDelete_eq_filter, ih, List.filter_filter]
      apply List.filter_congr
      intro p hp
      by_cases hpk : p.1 = k
      · have hm : k ∉ keep := fun hmem => hk (by simpa using hmem)
        simp [hpk, hm, List.contains_cons]
      · simp [List.contains_cons, hpk]

/-- The delete loop of `clear_tags` leaves exactly the entries whose key is
in the keep list. -/
theorem clearTagMap_eq_filter (m : TagMap) (keep : List String) :
    clearTagMap m keep = m.filter (fun p => keep.contains p.1) := by
  unfold clearTagMap
  rw [foldl_tagDelete_eq_filter]
  apply List.filter_congr
  intro p hp
  have hmem : p.1 ∈ m.map Prod.fst := List.mem_map_of_mem Prod.fst hp
  simp [hmem]

theorem regGetTags_regSetTags (reg : Registry) (key : MVKey) (m : TagMap) (key' : MVKey) :
    regGetTags (regSetTags reg key m) key' = if key' = key then m else regGetTags reg key' := rfl

theorem regSetTags_regSetTags (reg : Registry) (key : MVKey) (m1 m2 : TagMap) :
    regSetTags (regSetTags reg key m1) key m2 = regSetTags reg key m2 := by
  simp only [regSetTags]
  congr 1
  funext k
  by_cases h : k = key <;> simp [h]

theorem models_regSetTags (reg : Registry) (key : MVKey) (m : TagMap) :
    (regSetTags reg key m).models = reg.models := rfl

/-- The per-model contribution to bucket `s` of the snapshot: the latest
version of the model lands in bucket `s` exactly when its status reads `s`
and `s` is requested (or no statuses were requested). -/
def snapEmit (reg : Registry) (statuses : List String) (s : String)
    (mo : String × List Nat) : Option ModelVersion :=
  match latestVersion mo.2 with
  | none => none
  | some v =>
    let tags := regGetTags reg (mo.1, v)
    let status := tagGetD tags HL_SCAN_STATUS STATUS_NONE
    if (statuses.contains status || statuses.isEmpty) ∧ s = status then
      some { name := mo.1, version := v, tags := some tags }
    else none

theorem snapshot_foldl_aux (reg : Registry) (statuses : List String) (s : String) :
    ∀ (mos : List (String × List Nat)) (d : StatusDict),
    (mos.foldl (fun dikt mo =>
      match latestVersion mo.2 with
      | none => dikt
      | some v =>
        let tags := regGetTags reg (mo.1, v)
        let status := tagGetD tags HL_SCAN_STATUS STATUS_NONE
        if statuses.contains status || statuses.isEmpty then
          dappend dikt status { name := mo.1, version := v, tags := some tags }
        else dikt) d) s = d s ++ mos.filterMap (snapEmit reg statuses s)
  | [], d => by simp
  | mo :: mos, d => by
    rw [List.foldl_cons, snapshot_foldl_aux reg statuses s mos]
    cases hv : latestVersion mo.2 with
    | none => simp [snapEmit, hv]
    | some v =>
      simp only [hv]
      by_cases hw : (statuses.contains (tagGetD (regGetTags reg (mo.1, v)) HL_SCAN_STATUS STATUS_NONE)
          || statuses.isEmpty) = true
      · have hw2 : tagGetD (regGetTags reg (mo.1, v)) HL_SCAN_STATUS STATUS_NONE ∈ statuses
            ∨ statuses = [] := by simpa using hw
        by_cases hs : s = tagGetD (regGetTags reg (mo.1, v)) HL_SCAN_STATUS STATUS_NONE
        · simp [snapEmit, hv, hs, hw, hw2, dappend]
        · simp [snapEmit, hv, hs, hw, hw2, dappend]
      · have hw2 : ¬(tagGetD (regGetTags reg (mo.1, v)) HL_SCAN_STATUS STATUS_NONE ∈ statuses
            ∨ statuses = []) := by simpa using hw
        simp [snapEmit, hv, hw, hw2]

/-- Pointwise characterization of the Status Index snapshot: bucket `s`
lists, in registry listing order, the latest version of every model whose
status reads `s`, subject to the requested statuses filter. -/
theorem get_model_versions_by_status_apply (reg : Registry) (statuses : List String) (s : String) :
    (get_model_versions_by_status reg statuses) s
      = reg.models.filterMap (snapEmit reg statuses s) := by
  have h := snapshot_foldl_aux reg statuses s reg.models dempty
  unfold get_model_versions_by_status
  rw [h]
  simp [dempty]

/-- Members of bucket `s` of the snapshot carry the fresh registry tags of
their key, and that key's status reads exactly `s`. -/
theorem mem_snapshot_bucket (reg : Registry) (statuses : List String) (s : String)
    (mv : ModelVersion) (h : mv ∈ (get_model_versions_by_status reg statuses) s) :
    mv.tags = some (regGetTags reg (mvKey mv))
      ∧ tagGetD (regGetTags reg (mvKey mv)) HL_SCAN_STATUS STATUS_NONE = s := by
  rw [get_model_versions_by_status_apply] at h
  rcases List.mem_filterMap.mp h with ⟨mo, _, hemit⟩
  unfold snapEmit at hemit
  cases hv : latestVersion mo.2 with
  | none => rw [hv] at hemit; simp at hemit
  | some v =>
    rw [hv] at hemit
    simp only at hemit
    by_cases hc : (statuses.contains (tagGetD (regGetTags reg (mo.1, v)) HL_SCAN_STATUS STATUS_NONE)
        || statuses.isEmpty) = true ∧ s = tagGetD (regGetTags reg (mo.1, v)) HL_SCAN_STATUS STATUS_NONE
    · rw [if_pos hc] at hemit
      cases hemit
      exact ⟨rfl, hc.2.symm⟩
    · rw [if_neg hc] at hemit
      cases hemit

/-- Keys of the scan jobs submitted in a trace, in submission order. -/
def submittedKeys (events : List Event) : List MVKey :=
  events.filterMap (fun e =>
    match e with
    | Event.submitJob k _ => some k
    | _ => none)

theorem submittedKeys_append (a b : List Event) :
    submittedKeys (a ++ b) = submittedKeys a ++ submittedKeys b :=
  List.filterMap_append a b _

/-- Generic frame property of a fold of per-model-version writers: a key
not written by any step keeps its tags. -/
theorem foldl_frame {α : Type} (step : World → α → World) (keyOf : α → MVKey)
    (hstep : ∀ w a key, key ≠ keyOf a → regGetTags (step w a).reg key = regGetTags w.reg key)
    (l : List α) (w : World) (key : MVKey) (h : ∀ a ∈ l, key ≠ keyOf a) :
    regGetTags ((l.foldl step w).reg) key = regGetTags w.reg key := by
  induction l generalizing w with
  | nil => rfl
  | cons a l ih =>
    rw [List.foldl_cons, ih _ (fun b hb => h b (List.mem_cons_of_mem a hb))]
    exact hstep w a key (h a (List.mem_cons_self a l))

theorem scan_model_world_eq (w : World) (mv : ModelVersion) :
    (scan_model w mv).1
      = { reg := regSetTags w.reg (mvKey mv)
            (tagSet (regGetTags w.reg (mvKey mv)) HL_SCAN_RUN_ID (toString w.nextRunId)),
          initMarker := w.initMarker,
          nextRunId := w.nextRunId + 1,
          events := w.events ++ [Event.submitJob (mvKey mv) w.nextRunId,
            Event.tagWrite (mvKey mv) HL_SCAN_RUN_ID (toString w.nextRunId)] } := by
  simp [scan_model, run_notebook, set_model_version_tag, regGetTags, regSetTags]

theorem scan_model_frame (w : World) (mv : ModelVersion) (key : MVKey) (h : key ≠ mvKey mv) :
    regGetTags (scan_model w mv).1.reg key = regGetTags w.reg key := by
  rw [scan_model_world_eq]
  simp [regGetTags, regSetTags, h]

theorem scanfold_submittedKeys :
    ∀ (l : List ModelVersion) (w : World),
    submittedKeys ((l.foldl (fun w mv => (scan_model w mv).1) w).events)
      = submittedKeys w.events ++ l.map mvKey
  | [], w => by simp
  | mv :: l, w => by
    rw [List.foldl_cons, scanfold_submittedKeys l]
    rw [scan_model_world_eq]
    simp [submittedKeys_append, submittedKeys]

theorem scanfold_frame (l : List ModelVersion) (w : World) (key : MVKey)
    (h : ∀ mv ∈ l, key ≠ mvKey mv) :
    regGetTags ((l.foldl (fun w mv => (scan_model w mv).1) w).reg) key = regGetTags w.reg key :=
  foldl_frame _ mvKey (fun w mv key hk => scan_model_frame w mv key hk) l w key h

theorem set_model_version_tag_frame (w : World) (mv : ModelVersion) (k v : String) (key : MVKey)
    (h : key ≠ mvKey mv) :
    regGetTags (set_model_version_tag w mv k v).reg key = regGetTags w.reg key := by
  simp [set_model_version_tag, regGetTags, regSetTags, h]

theorem initfold_submittedKeys :
    ∀ (l : List ModelVersion) (w : World),
    submittedKeys ((l.foldl (fun w mv =>
      set_model_version_tag (set_model_version_tag w mv HL_SCAN_STATUS STATUS_UNSCANNED)
        mv HL_SCAN_UPDATED_AT (isoformat now)) w).events) = submittedKeys w.events
  | [], w => by rfl
  | mv :: l, w => by
    rw [List.foldl_cons, initfold_submittedKeys l]
    simp [set_model_version_tag, submittedKeys_append, submittedKeys]

theorem init_submittedKeys (now : Int) (w : World) :
    submittedKeys (init now w).events = submittedKeys w.events := by
  unfold init mark_init_done
  rw [submittedKeys_append, initfold_submittedKeys]
  simp [submittedKeys]

theorem init_frame (now : Int) (w : World) (key : MVKey)
    (h : ∀ mv ∈ (get_model_versions_by_status w.reg []) STATUS_NONE, key ≠ mvKey mv) :
    regGetTags (init now w).reg key = regGetTags w.reg key := by
  unfold init mark_init_done
  exact foldl_frame _ mvKey
    (fun w mv key hk => by
      rw [set_model_version_tag_frame _ _ _ _ _ hk, set_model_version_tag_frame _ _ _ _ _ hk])
    _ w key h

theorem init_initMarker (now : Int) (w : World) : (init now w).initMarker = true := rfl

theorem reapOne_ok (now tmo : Int) (w : World) (mv : ModelVersion) (w1 : World)
    (h : reapOne now tmo w mv = Except.ok w1) :
    (∃ t, w1.events = w.events ++ t ∧ submittedKeys t = [])
      ∧ (∀ key, key ≠ mvKey mv → regGetTags w1.reg key = regGetTags w.reg key)
      ∧ w1.initMarker = w.initMarker ∧ w1.nextRunId = w.nextRunId := by
  unfold reapOne at h
  cases htags : mv.tags with
  | none =>
    rw [htags] at h
    simp only [Except.ok.injEq] at h
    subst h
    exact ⟨⟨[Event.logError _], rfl, rfl⟩, fun key hk => rfl, rfl, rfl⟩
  | some tags =>
    rw [htags] at h
    simp only at h
    by_cases hst : tagGet tags HL_SCAN_STATUS ≠ some STATUS_PENDING
    · rw [if_pos hst] at h
      simp only [Except.ok.injEq] at h
      subst h
      exact ⟨⟨[Event.logError _], rfl, rfl⟩, fun key hk => rfl, rfl, rfl⟩
    · rw [if_neg hst] at h
      cases hupd : tagGet tags HL_SCAN_UPDATED_AT with
      | none =>
        rw [hupd] at h
        simp only [Except.ok.injEq] at h
        subst h
        exact ⟨⟨[Event.logError _], rfl, rfl⟩, fun key hk => rfl, rfl, rfl⟩
      | some s =>
        rw [hupd] at h
        simp only at h
        cases hparse : fromisoformat? s with
        | none => rw [hparse] at h; exact absurd h (by simp)
        | some t =>
          rw [hparse] at h
          simp only at h
          by_cases hexp : now - t > tmo * 60
          · rw [if_pos hexp] at h
            simp only [Except.ok.injEq] at h
            subst h
            refine ⟨⟨[Event.tagClear (mvKey mv) [HL_SCAN_RUN_ID],
                Event.tagWrite (mvKey mv) HL_SCAN_STATUS STATUS_FAILED,
                Event.tagWrite (mvKey mv) HL_SCAN_MESSAGE "Scan job timed out",
                Event.tagWrite (mvKey mv) HL_SCAN_UPDATED_AT (isoformat now)], ?_, rfl⟩,
              ?_, rfl, rfl⟩
            · simp [set_model_version_tag, clear_tags]
            · intro key hk
              simp [set_model_version_tag, clear_tags, regGetTags, regSetTags, hk]
          · rw [if_neg hexp] at h
            simp only [Except.ok.injEq] at h
            subst h
            exact ⟨⟨[], by simp, rfl⟩, fun key hk => rfl, rfl, rfl⟩

theorem handle_job_timeouts_ok (now : Int) (l : List ModelVersion) (tmo : Int) :
    ∀ (w w' : World), handle_job_timeouts now w l tmo = Except.ok w' →
    (∃ t, w'.events = w.events ++ t ∧ submittedKeys t = [])
      ∧ (∀ key, (∀ mv ∈ l, key ≠ mvKey mv) → regGetTags w'.reg key = regGetTags w.reg key)
      ∧ w'.initMarker = w.initMarker ∧ w'.nextRunId = w.nextRunId := by
  induction l with
  | nil =>
    intro w w' h
    simp only [handle_job_timeouts, List.foldlM_nil, pure, Except.pure, Except.ok.injEq] at h
    subst h
    exact ⟨⟨[], by simp, rfl⟩, fun _ _ => rfl, rfl, rfl⟩
  | cons mv l ih =>
    intro w w' h
    rw [handle_job_timeouts, List.foldlM_cons] at h
    cases hstep : reapOne now tmo w mv with
    | error e => rw [hstep] at h; simp only [Bind.bind, Except.bind] at h; exact absurd h (by simp)
    | ok w1 =>
      rw [hstep] at h
      have h' : handle_job_timeouts now w1 l tmo = Except.ok w' := by
        simpa only [handle_job_timeouts, Bind.bind, Except.bind] using h
      obtain ⟨⟨t1, he1, hs1⟩, hf1, hm1, hn1⟩ := reapOne_ok now tmo w mv w1 hstep
      obtain ⟨⟨t2, he2, hs2⟩, hf2, hm2, hn2⟩ := ih w1 w' h'
      refine ⟨⟨t1 ++ t2, ?_, ?_⟩, ?_, ?_, ?_⟩
      · rw [he2, he1, List.append_assoc]
      · rw [submittedKeys_append, hs1, hs2]; rfl
      · intro key hkey
        rw [hf2 key (fun b hb => hkey b (List.mem_cons_of_mem mv hb)),
          hf1 key (hkey mv (List.mem_cons_self mv l))]
      · rw [hm2, hm1]
      · rw [hn2, hn1]

theorem handle_job_timeouts_events_mono (now : Int) (l : List ModelVersion) (tmo : Int)
    (w w' : World) (h : handle_job_timeouts now w l tmo = Except.ok w') (e : Event)
    (he : e ∈ w.events) : e ∈ w'.events := by
  obtain ⟨⟨t, ht, _⟩, _, _, _⟩ := handle_job_timeouts_ok now l tmo w w' h
  rw [ht]
  exact List.mem_append_left t he

theorem filterMap_range_getElem {α : Type} (l : List α) (n : Nat) :
    (List.range n).filterMap (fun i => l[i]?) = l.take n := by
  induction n with
  | zero => simp
  | succ n ih =>
    rw [List.range_succ, List.filterMap_append, ih, List.take_succ]
    cases h : l[n]? with
    | none => simp [List.filterMap_cons, h]
    | some b => simp [List.filterMap_cons, h]

/-- The admission computation returns exactly the first
`min(max(cap - numActive, 0), len(candidates))` candidates. -/
theorem pickNewJobs_eq_take (c : List ModelVersion) (a : Nat) (cap : Int) :
    pickNewJobs c a cap = c.take ((min (max (cap - (a : Int)) 0) (c.length : Int)).toNat) := by
  unfold pickNewJobs
  exact filterMap_range_getElem c _

theorem mem_pickNewJobs (c : List ModelVersion) (a : Nat) (cap : Int) (mv : ModelVersion)
    (h : mv ∈ pickNewJobs c a cap) : mv ∈ c := by
  rw [pickNewJobs_eq_take] at h
  exact List.take_subset _ _ h

/-- The world after the conditional Initializer step of the main poll cell
(hl_monitor_models.py lines 409-410). -/
def postInitWorld (now : Int) (w : World) : World :=
  if w.initMarker then w else init now w

/-- The list of model versions the main poll cell admits for scanning
(hl_monitor_models.py lines 420-424): the admitted prefix of the none bucket
of the cycle's snapshot, taken over the pre-init registry. -/
def admittedJobs (w : World) : List ModelVersion :=
  pickNewJobs ((get_model_versions_by_status w.reg [STATUS_NONE, STATUS_PENDING]) STATUS_NONE)
    ((get_model_versions_by_status w.reg [STATUS_NONE, STATUS_PENDING]) STATUS_PENDING).length
    MAX_ACTIVE_SCAN_JOBS

/-- The world right before the main poll cell calls `handle_job_timeouts`
(hl_monitor_models.py line 429): init has run if needed and all admitted
scans have been submitted. -/
def preReapWorld (now : Int) (w : World) : World :=
  let wadm := (admittedJobs w).foldl (fun w mv => (scan_model w mv).1) (postInitWorld now w)
  { wadm with events := wadm.events ++ [Event.reaperRun] }

theorem pollCycle_exit (now : Int) (w : World)
    (hempty : (get_model_versions_by_status w.reg [STATUS_NONE, STATUS_PENDING]) STATUS_NONE = []) :
    pollCycle now w = Except.ok { postInitWorld now w with
      events := (postInitWorld now w).events
        ++ [Event.exitEarly "There are no new model versions to scan."] } := by
  simp only [pollCycle, hempty, List.length_nil, if_pos, postInitWorld]

theorem pollCycle_run (now : Int) (w : World)
    (hne : (get_model_versions_by_status w.reg [STATUS_NONE, STATUS_PENDING]) STATUS_NONE ≠ []) :
    pollCycle now w = handle_job_timeouts now (preReapWorld now w)
      ((get_model_versions_by_status w.reg [STATUS_NONE, STATUS_PENDING]) STATUS_PENDING)
      HL_SCAN_NOTEBOOK_TIMEOUT_MINS := by
  unfold pollCycle preReapWorld admittedJobs postInitWorld
  rw [if_neg (by simpa [List.length_eq_zero] using hne)]

/-- A key whose registry status differs from `s` is not the key of any
member of bucket `s` of the snapshot. -/
theorem bucket_key_ne (reg : Registry) (ss : List String) (s : String) (key : MVKey)
    (mv : ModelVersion) (h : mv ∈ (get_model_versions_by_status reg ss) s)
    (hst : tagGetD (regGetTags reg key) HL_SCAN_STATUS STATUS_NONE ≠ s) : key ≠ mvKey mv := by
  intro he
  exact hst (by rw [he]; exact (mem_snapshot_bucket reg ss s mv h).2)

theorem pickNewJobs_nil (a : Nat) (cap : Int) : pickNewJobs [] a cap = [] := by
  rw [pickNewJobs_eq_take]
  simp

theorem submittedKeys_preReapWorld (now : Int) (w : World) :
    submittedKeys (preReapWorld now w).events
      = submittedKeys w.events ++ (admittedJobs w).map mvKey := by
  simp only [preReapWorld]
  rw [submittedKeys_append, scanfold_submittedKeys]
  have hr : submittedKeys [Event.reaperRun] = [] := rfl
  rw [hr, List.append_nil]
  simp only [postInitWorld]
  by_cases hm : w.initMarker
  · rw [if_pos hm]
  · rw [if_neg (by simpa using hm), init_submittedKeys]

theorem preReapWorld_frame (now : Int) (w : World) (key : MVKey)
    (hinit : ∀ mv ∈ (get_model_versions_by_status w.reg []) STATUS_NONE, key ≠ mvKey mv)
    (hadm : ∀ mv ∈ admittedJobs w, key ≠ mvKey mv) :
    regGetTags (preReapWorld now w).reg key = regGetTags w.reg key := by
  simp only [preReapWorld]
  have h1 : regGetTags ((admittedJobs w).foldl (fun w mv => (scan_model w mv).1)
      (postInitWorld now w)).reg key = regGetTags (postInitWorld now w).reg key :=
    scanfold_frame _ _ _ hadm
  have h2 : regGetTags (postInitWorld now w).reg key = regGetTags w.reg key := by
    simp only [postInitWorld]
    by_cases hm : w.initMarker
    · rw [if_pos hm]
    · rw [if_neg (by simpa using hm)]
      exact init_frame now w key hinit
  exact h1.trans h2

theorem latestVersion_foldl_some (vs : List Nat) (m : Nat) :
    vs.foldl (fun acc v =>
      match acc with
      | none => some v
      | some m => if v > m then some v else acc) (some m) = some (vs.foldl max m) := by
  induction vs generalizing m with
  | nil => rfl
  | cons v vs ih =>
    rw [List.foldl_cons, List.foldl_cons]
    have h : (match some m with
        | none => some v
        | some m => if v > m then some v else some m) = some (max m v) := by
      by_cases hv : v > m
      · simp only [if_pos hv]; congr 1; omega
      · simp only [if_neg hv]; congr 1; omega
    rw [h, ih]

/-- The latest-version loop of `get_model_versions_by_status` picks exactly
the maximum version number. -/
theorem latestVersion_eq_max (vs : List Nat) : latestVersion vs = vs.max? := by
  cases vs with
  | nil => rfl
  | cons a as => exact latestVersion_foldl_some as a

/-
Claim theorems.
-/

/-- C7: `Scheduler.admit` (hl_monitor_models.py lines 420-424, with the cap
generalized from the constant `MAX_ACTIVE_SCAN_JOBS`) returns exactly the
first `min(max(cap - activeCount, 0), len(candidates))` candidates in
snapshot order; in particular with cap 10, activeCount 7 and candidates
A,B,C,D,E it admits exactly A,B,C. -/
theorem c7_scheduler_admission :
    (∀ (candidates : List ModelVersion) (activeCount : Nat) (cap : Int),
      pickNewJobs candidates activeCount cap
        = candidates.take ((min (max (cap - (activeCount : Int)) 0)
            ((candidates.length : Int))).toNat))
    ∧ pickNewJobs
        [{ name := "A", version := 1, tags := some [] },
         { name := "B", version := 1, tags := some [] },
         { name := "C", version := 1, tags := some [] },
         { name := "D", version := 1, tags := some [] },
         { name := "E", version := 1, tags := some [] }] 7 10
      = [{ name := "A", version := 1, tags := some [] },
         { name := "B", version := 1, tags := some [] },
         { name := "C", version := 1, tags := some [] }] := by
  constructor
  · exact pickNewJobs_eq_take
  · decide

/-- C9: the Status Index snapshot buckets, per model with at least one
version, exactly the model's highest-numbered version under the value of
its scan-status tag (absent tag mapping to the none bucket), restricted to
the requested statuses when any are requested; the returned mapping is
total, yielding the empty list for any other status key. The second
conjunct pins the version choice to the maximum version number. -/
theorem c9_status_index_snapshot :
    (∀ (reg : Registry) (statuses : List String) (s : String),
      (get_model_versions_by_status reg statuses) s
        = reg.models.filterMap (snapEmit reg statuses s))
    ∧ (∀ vs : List Nat, latestVersion vs = vs.max?) :=
  ⟨get_model_versions_by_status_apply, latestVersion_eq_max⟩

/-- An empty scope: no registered models at all, initialization not yet
done. -/
def c6World : World :=
  { reg := { models := [], tags := fun _ => [] },
    initMarker := false, nextRunId := 0, events := [] }

/-- C6: contrary to the claim, `init` (hl_monitor_models.py lines 231-238)
calls `mark_init_done` unconditionally, so an empty scope does write the
Init Marker: the first conjunct shows every `init` run ends with the marker
set; the second evaluates `init` on an empty scope, where the only effect
is the marker write. -/
theorem c6_init_empty_scope_writes_marker :
    (∀ (now : Int) (w : World), (init now w).initMarker = true)
    ∧ init 0 c6World = { c6World with initMarker := true, events := [Event.markInit] } :=
  ⟨fun _ _ => rfl, rfl⟩

theorem regGetTags_regSetTags_self (reg : Registry) (key : MVKey) (m : TagMap) :
    regGetTags (regSetTags reg key m) key = m := by
  simp [regGetTags, regSetTags]

theorem ne_run_status : HL_SCAN_RUN_ID ≠ HL_SCAN_STATUS := by decide

theorem ne_run_updated : HL_SCAN_RUN_ID ≠ HL_SCAN_UPDATED_AT := by decide

theorem ne_run_message : HL_SCAN_RUN_ID ≠ HL_SCAN_MESSAGE := by decide

theorem ne_run_threat : HL_SCAN_RUN_ID ≠ HL_SCAN_THREAT_LEVEL := by decide

theorem ne_run_scanner : HL_SCAN_RUN_ID ≠ HL_SCAN_SCANNER_VERSION := by decide

theorem ne_run_url : HL_SCAN_RUN_ID ≠ HL_SCAN_URL := by decide

/-- C4 amended: the transitions of this system retain an existing run_id
tag, except completion tagging: admission tagging (`tag_for_scanning`), the
Timeout Reaper's clear step (`clear_tags` keeping `hl_scan_run_id`), and
failure tagging (`fail_and_exit_with_message`) all leave the run_id lookup
unchanged, while `tag_model_version_with_scan_results` clears every
previous tag including run_id, leaving no run_id tag afterwards. -/
theorem c4_run_id_retention :
    ∀ (now : Int) (w : World) (mv : ModelVersion) (msg : String) (sr : ScanResults)
      (url : String),
    (tagGet (regGetTags (tag_for_scanning now w mv).reg (mvKey mv)) HL_SCAN_RUN_ID
        = tagGet (regGetTags w.reg (mvKey mv)) HL_SCAN_RUN_ID)
    ∧ (tagGet (regGetTags (clear_tags w mv [HL_SCAN_RUN_ID]).reg (mvKey mv)) HL_SCAN_RUN_ID
        = tagGet (regGetTags w.reg (mvKey mv)) HL_SCAN_RUN_ID)
    ∧ (tagGet (regGetTags (fail_and_exit_with_message now w mv msg).1.reg (mvKey mv))
          HL_SCAN_RUN_ID
        = tagGet (regGetTags w.reg (mvKey mv)) HL_SCAN_RUN_ID)
    ∧ tagGet (regGetTags (tag_model_version_with_scan_results w mv sr url).reg (mvKey mv))
        HL_SCAN_RUN_ID = none := by
  intro now w mv msg sr url
  have hclear : tagGet (clearTagMap (regGetTags w.reg (mvKey mv)) [HL_SCAN_RUN_ID])
      HL_SCAN_RUN_ID = tagGet (regGetTags w.reg (mvKey mv)) HL_SCAN_RUN_ID := by
    rw [clearTagMap_eq_filter, tagGet_filter_key]
    simp
  refine ⟨?_, ?_, ?_, ?_⟩
  · have hreg : regGetTags (tag_for_scanning now w mv).reg (mvKey mv)
        = tagSet (tagSet (regGetTags w.reg (mvKey mv)) HL_SCAN_STATUS STATUS_PENDING)
            HL_SCAN_UPDATED_AT (isoformat now) := by
      simp [tag_for_scanning, set_model_version_tag, regGetTags, regSetTags]
    rw [hreg, tagGet_tagSet, if_neg ne_run_updated, tagGet_tagSet, if_neg ne_run_status]
  · have hreg : regGetTags (clear_tags w mv [HL_SCAN_RUN_ID]).reg (mvKey mv)
        = clearTagMap (regGetTags w.reg (mvKey mv)) [HL_SCAN_RUN_ID] := by
      simp [clear_tags, regGetTags, regSetTags]
    rw [hreg]
    exact hclear
  · have hreg : regGetTags (fail_and_exit_with_message now w mv msg).1.reg (mvKey mv)
        = tagSet (tagSet (tagSet (clearTagMap (regGetTags w.reg (mvKey mv)) [HL_SCAN_RUN_ID])
            HL_SCAN_STATUS STATUS_FAILED) HL_SCAN_MESSAGE msg)
            HL_SCAN_UPDATED_AT (isoformat now) := by
      simp [fail_and_exit_with_message, clear_tags, set_model_version_tag,
        regGetTags, regSetTags]
    rw [hreg, tagGet_tagSet, if_neg ne_run_updated, tagGet_tagSet, if_neg ne_run_message,
      tagGet_tagSet, if_neg ne_run_status]
    exact hclear
  · have hnone : tagGet (clearTagMap (regGetTags w.reg (mvKey mv)) []) HL_SCAN_RUN_ID = none := by
      rw [clearTagMap_eq_filter, tagGet_filter_key]
      simp
    by_cases hdone : sr.status == "done"
    · have hreg : regGetTags (tag_model_version_with_scan_results w mv sr url).reg (mvKey mv)
          = tagSet (tagSet (tagSet (tagSet (tagSet
              (clearTagMap (regGetTags w.reg (mvKey mv)) [])
              HL_SCAN_STATUS sr.status) HL_SCAN_THREAT_LEVEL sr.severity)
              HL_SCAN_UPDATED_AT sr.end_time) HL_SCAN_SCANNER_VERSION sr.version)
              HL_SCAN_URL (url ++ "/model-details/" ++ sr.model_id ++ "/scans/" ++ sr.scan_id) := by
        simp [tag_model_version_with_scan_results, clear_tags, set_model_version_tag,
          regGetTags, regSetTags, hdone]
      rw [hreg, tagGet_tagSet, if_neg ne_run_url, tagGet_tagSet, if_neg ne_run_scanner,
        tagGet_tagSet, if_neg ne_run_updated, tagGet_tagSet, if_neg ne_run_threat,
        tagGet_tagSet, if_neg ne_run_status]
      exact hnone
    · have hreg : regGetTags (tag_model_version_with_scan_results w mv sr url).reg (mvKey mv)
          = tagSet (clearTagMap (regGetTags w.reg (mvKey mv)) []) HL_SCAN_STATUS sr.status := by
        simp [tag_model_version_with_scan_results, clear_tags, set_model_version_tag,
          regGetTags, regSetTags, hdone]
      rw [hreg, tagGet_tagSet, if_neg ne_run_status]
      exact hnone

/-- A registry holding one model version that carries a run_id tag from its
scan job, as left behind by admission. -/
def c4World : World :=
  { reg := { models := [("c.s.m", [1])],
             tags := fun k =>
               if k = ("c.s.m", 1) then
                 [(HL_SCAN_STATUS, "pending"), (HL_SCAN_RUN_ID, "42")]
               else [] },
    initMarker := true, nextRunId := 0, events := [] }

/-- The model version and scan result fed to completion tagging in the C4
counterexample. -/
def c4mv : ModelVersion :=
  { name := "c.s.m"
    version := 1
    tags := some [(HL_SCAN_STATUS, "pending"), (HL_SCAN_RUN_ID, "42")] }

/-- A `done` scan result for the C4 counterexample. -/
def c4sr : ScanResults :=
  { status := "done"
    severity := "low"
    end_time := "2400"
    version := "24.1"
    model_id := "mid"
    scan_id := "sid" }

/-- C4 counterexample: completion tagging
(`tag_model_version_with_scan_results`, hl_scan_model.py line 262 calls
`clear_tags` with no keep list) deletes an existing run_id tag, so the
claim that every transition retains run_id is false. -/
theorem c4_counterexample :
    tagGet (regGetTags c4World.reg ("c.s.m", 1)) HL_SCAN_RUN_ID = some "42"
    ∧ tagGet (regGetTags
        (tag_model_version_with_scan_results c4World c4mv c4sr "http://c").reg
        ("c.s.m", 1)) HL_SCAN_RUN_ID = none := by
  constructor
  · rfl
  · rfl

/-- True exactly on a scan-job submission event. -/
def isSubmitEvent : Event → Bool
  | Event.submitJob _ _ => true
  | _ => false

/-- True exactly on a tag write that sets the scan status to pending. -/
def isPendingWrite : Event → Bool
  | Event.tagWrite _ k v => k == HL_SCAN_STATUS && v == STATUS_PENDING
  | _ => false

/-- A scope with a single untagged model version about to be admitted. -/
def c3World : World :=
  { reg := { models := [("c.s.m", [1])], tags := fun _ => [] },
    initMarker := true, nextRunId := 0, events := [] }

/-- The admitted model version of the C3 scenario. -/
def c3mv : ModelVersion := { name := "c.s.m", version := 1, tags := some [] }

/-- The scan result of the C3 scenario. -/
def c3sr : ScanResults :=
  { status := "done"
    severity := "low"
    end_time := "2400"
    version := "24.1"
    model_id := "mid"
    scan_id := "sid" }

/-- The combined event trace of admitting one artifact (`scan_model` in the
monitor) followed by the scan job's happy path (`scan_job_main`). -/
def c3trace : List Event :=
  (scan_job_main 50 (scan_model c3World c3mv).1 c3mv c3sr "http://c").events

/-- C3 counterexample: in the combined admission trace the job submission
sits at index 0 and the first `scan_status = pending` write at index 2, so
submission strictly precedes the pending write — the opposite of the
claimed order (the monitor's `scan_model` submits first and never writes
`pending`; the scan job writes `pending` only after it starts). -/
theorem c3_counterexample :
    c3trace.findIdx? isSubmitEvent = some 0
    ∧ c3trace.findIdx? isPendingWrite = some 2 := by
  constructor
  · rfl
  · rfl

/-- C3 amended: for every admitted artifact the monitor first submits the
scan job and then records the returned run handle as run_id
(hl_monitor_models.py lines 323-337); `scan_status = pending` and
`updated_at` are written afterwards, by the scan job itself, before the
scan engine is invoked (hl_scan_model.py lines 313-315). -/
theorem c3_submission_precedes_pending :
    ∀ (w : World) (mv : ModelVersion) (now : Int) (sr : ScanResults) (url : String),
    (scan_model w mv).1.events
        = w.events ++ [Event.submitJob (mvKey mv) w.nextRunId,
            Event.tagWrite (mvKey mv) HL_SCAN_RUN_ID (toString w.nextRunId)]
    ∧ ∃ rest, (scan_job_main now w mv sr url).events
        = w.events ++ [Event.tagWrite (mvKey mv) HL_SCAN_STATUS STATUS_PENDING,
            Event.tagWrite (mvKey mv) HL_SCAN_UPDATED_AT (isoformat now),
            Event.scanEngine (mvKey mv)] ++ rest := by
  intro w mv now sr url
  constructor
  · rw [scan_model_world_eq]
  · refine ⟨Event.tagClear (mvKey mv) [] :: Event.tagWrite (mvKey mv) HL_SCAN_STATUS sr.status ::
      (if sr.status == "done" then
        [Event.tagWrite (mvKey mv) HL_SCAN_THREAT_LEVEL sr.severity,
         Event.tagWrite (mvKey mv) HL_SCAN_UPDATED_AT sr.end_time,
         Event.tagWrite (mvKey mv) HL_SCAN_SCANNER_VERSION sr.version,
         Event.tagWrite (mvKey mv) HL_SCAN_URL
           (url ++ "/model-details/" ++ sr.model_id ++ "/scans/" ++ sr.scan_id)]
       else []), ?_⟩
    by_cases hdone : sr.status == "done" <;>
      simp [scan_job_main, tag_for_scanning, tag_model_version_with_scan_results,
        clear_tags, set_model_version_tag, hdone]

/-
Equations for the individual outcomes of the timeout reaper's loop body.
-/

theorem reapOne_missing_updated (now tmo : Int) (w : World) (mv : ModelVersion) (m : TagMap)
    (htags : mv.tags = some m)
    (hst : tagGet m HL_SCAN_STATUS = some STATUS_PENDING)
    (hupd : tagGet m HL_SCAN_UPDATED_AT = none) :
    reapOne now tmo w mv = Except.ok (logMsg w ("Error: model version " ++ mv.name
      ++ " version " ++ toString mv.version
      ++ " is missing the hl_scan_updated_at tag. Skipping stale job management.")) := by
  unfold reapOne
  rw [htags]
  simp only
  rw [if_neg (not_not_intro hst), hupd]

theorem reapOne_unparseable (now tmo : Int) (w : World) (mv : ModelVersion) (m : TagMap)
    (s : String) (htags : mv.tags = some m)
    (hst : tagGet m HL_SCAN_STATUS = some STATUS_PENDING)
    (hupd : tagGet m HL_SCAN_UPDATED_AT = some s)
    (hparse : fromisoformat? s = none) :
    reapOne now tmo w mv = Except.error ("ValueError: Invalid isoformat string: " ++ s) := by
  unfold reapOne
  rw [htags]
  simp only
  rw [if_neg (not_not_intro hst), hupd]
  simp only
  rw [hparse]

theorem reapOne_expired (now tmo : Int) (w : World) (mv : ModelVersion) (m : TagMap)
    (s : String) (t : Int) (htags : mv.tags = some m)
    (hst : tagGet m HL_SCAN_STATUS = some STATUS_PENDING)
    (hupd : tagGet m HL_SCAN_UPDATED_AT = some s)
    (hparse : fromisoformat? s = some t)
    (hexp : now - t > tmo * 60) :
    reapOne now tmo w mv = Except.ok
      (set_model_version_tag (set_model_version_tag (set_model_version_tag
        (clear_tags w mv [HL_SCAN_RUN_ID]) mv HL_SCAN_STATUS STATUS_FAILED)
        mv HL_SCAN_MESSAGE "Scan job timed out")
        mv HL_SCAN_UPDATED_AT (isoformat now)) := by
  unfold reapOne
  rw [htags]
  simp only
  rw [if_neg (not_not_intro hst), hupd]
  simp only
  rw [hparse]
  simp only
  rw [if_pos hexp]

theorem reapOne_fresh (now tmo : Int) (w : World) (mv : ModelVersion) (m : TagMap)
    (s : String) (t : Int) (htags : mv.tags = some m)
    (hst : tagGet m HL_SCAN_STATUS = some STATUS_PENDING)
    (hupd : tagGet m HL_SCAN_UPDATED_AT = some s)
    (hparse : fromisoformat? s = some t)
    (hexp : ¬(now - t > tmo * 60)) :
    reapOne now tmo w mv = Except.ok w := by
  unfold reapOne
  rw [htags]
  simp only
  rw [if_neg (not_not_intro hst), hupd]
  simp only
  rw [hparse]
  simp only
  rw [if_neg hexp]

theorem handle_job_timeouts_cons (now : Int) (w : World) (mv : ModelVersion)
    (rest : List ModelVersion) (tmo : Int) :
    handle_job_timeouts now w (mv :: rest) tmo
      = (reapOne now tmo w mv) >>= fun w1 => handle_job_timeouts now w1 rest tmo := by
  rw [handle_job_timeouts, List.foldlM_cons]
  rfl

/-- C5 amended: for a pending entry of the reconcile input list, a missing
`updated_at` tag is logged and skipped without raising, and processing
continues with the remaining entries; but an `updated_at` tag that is
present and unparseable raises an uncaught exception
(`datetime.fromisoformat`, hl_monitor_models.py line 368 has no
try/except), aborting reconcile with the remaining entries unprocessed. -/
theorem c5_stale_updated_at :
    ∀ (now tmo : Int) (w : World) (mv : ModelVersion) (rest : List ModelVersion) (m : TagMap),
    mv.tags = some m →
    tagGet m HL_SCAN_STATUS = some STATUS_PENDING →
    ((tagGet m HL_SCAN_UPDATED_AT = none →
      handle_job_timeouts now w (mv :: rest) tmo
        = handle_job_timeouts now (logMsg w ("Error: model version " ++ mv.name
            ++ " version " ++ toString mv.version
            ++ " is missing the hl_scan_updated_at tag. Skipping stale job management."))
            rest tmo)
    ∧ (∀ s, tagGet m HL_SCAN_UPDATED_AT = some s → fromisoformat? s = none →
        handle_job_timeouts now w (mv :: rest) tmo
          = Except.error ("ValueError: Invalid isoformat string: " ++ s))) := by
  intro now tmo w mv rest m htags hst
  constructor
  · intro hupd
    rw [handle_job_timeouts_cons, reapOne_missing_updated now tmo w mv m htags hst hupd]
    simp only [Bind.bind, Except.bind]
  · intro s hupd hparse
    rw [handle_job_timeouts_cons, reapOne_unparseable now tmo w mv m s htags hst hupd hparse]
    simp only [Bind.bind, Except.bind]

/-- An empty-registry world for the C5 witness. -/
def c5World : World :=
  { reg := { models := [], tags := fun _ => [] },
    initMarker := true, nextRunId := 0, events := [] }

/-- A pending entry whose `updated_at` tag is missing. -/
def c5mvMissing : ModelVersion :=
  { name := "c.s.m"
    version := 1
    tags := some [(HL_SCAN_STATUS, "pending")] }

/-- A pending entry whose `updated_at` tag does not parse. -/
def c5mvBad : ModelVersion :=
  { name := "c.s.m"
    version := 1
    tags := some [(HL_SCAN_STATUS, "pending"), (HL_SCAN_UPDATED_AT, "not-a-timestamp")] }

/-- C5 witness: both conclusions of `c5_stale_updated_at` evaluated on
concrete entries. -/
theorem c5_stale_updated_at_witness :
    (handle_job_timeouts 100 c5World [c5mvMissing] 60
      = handle_job_timeouts 100 (logMsg c5World ("Error: model version " ++ "c.s.m"
          ++ " version " ++ toString 1
          ++ " is missing the hl_scan_updated_at tag. Skipping stale job management."))
          [] 60)
    ∧ handle_job_timeouts 100 c5World [c5mvBad] 60
        = Except.error ("ValueError: Invalid isoformat string: " ++ "not-a-timestamp") := by
  constructor
  · exact (c5_stale_updated_at 100 60 c5World c5mvMissing [] _ rfl rfl).1 rfl
  · exact (c5_stale_updated_at 100 60 c5World c5mvBad [] _ rfl rfl).2 "not-a-timestamp" rfl rfl

/-- A second, genuinely expired pending entry queued behind the unparseable
one: the claim says it must still get processed. -/
def c5mvExpired : ModelVersion :=
  { name := "c.s.n"
    version := 2
    tags := some [(HL_SCAN_STATUS, "pending"), (HL_SCAN_UPDATED_AT, "100")] }

/-- C5 counterexample: with an unparseable `updated_at` on the first entry,
reconcile raises instead of logging and skipping, so the remaining (long
expired) entry is never processed — the run ends in an uncaught
`ValueError` rather than continuing non-fatally as claimed. -/
theorem c5_counterexample :
    handle_job_timeouts 1000000 c5World [c5mvBad, c5mvExpired] 60
      = Except.error "ValueError: Invalid isoformat string: not-a-timestamp" := by
  rfl

theorem ne_status_updated : HL_SCAN_STATUS ≠ HL_SCAN_UPDATED_AT := by decide

theorem ne_status_message : HL_SCAN_STATUS ≠ HL_SCAN_MESSAGE := by decide

theorem ne_message_updated : HL_SCAN_MESSAGE ≠ HL_SCAN_UPDATED_AT := by decide

theorem handle_job_timeouts_singleton (now : Int) (w : World) (mv : ModelVersion) (tmo : Int) :
    handle_job_timeouts now w [mv] tmo = reapOne now tmo w mv := by
  rw [handle_job_timeouts_cons]
  cases h : reapOne now tmo w mv <;>
    simp [handle_job_timeouts, List.foldlM_nil, Bind.bind, Except.bind, pure, Except.pure]

/-- The tag map a reaped entry ends with: of the old map only the
`hl_scan_run_id` entry survives, and the failed status, the timeout
message, and a fresh timestamp are written on top. -/
def reapedTagMap (m : TagMap) (now : Int) : TagMap :=
  tagSet (tagSet (tagSet (m.filter (fun p => [HL_SCAN_RUN_ID].contains p.1))
    HL_SCAN_STATUS STATUS_FAILED) HL_SCAN_MESSAGE "Scan job timed out")
    HL_SCAN_UPDATED_AT (isoformat now)

/-- C8: for a pending artifact with a parseable `updated_at` timestamp `t`,
reconcile transitions it to failed exactly when `now - t` strictly exceeds
the timeout: the expired branch writes `scan_status = failed`,
`message = "Scan job timed out"`, a fresh `updated_at`, keeps the old
run_id entry, and clears every other tag; the non-expired branch (elapsed
less than or exactly equal to the timeout) leaves the world completely
unchanged. -/
theorem c8_reaper_strict_timeout :
    ∀ (now tmo : Int) (w : World) (mv : ModelVersion) (m : TagMap) (s : String) (t : Int),
    regGetTags w.reg (mvKey mv) = m →
    mv.tags = some m →
    tagGet m HL_SCAN_STATUS = some STATUS_PENDING →
    tagGet m HL_SCAN_UPDATED_AT = some s →
    fromisoformat? s = some t →
    ((now - t > tmo * 60 →
        handle_job_timeouts now w [mv] tmo = Except.ok
          { w with
            reg := regSetTags w.reg (mvKey mv) (reapedTagMap m now),
            events := w.events ++ [Event.tagClear (mvKey mv) [HL_SCAN_RUN_ID],
              Event.tagWrite (mvKey mv) HL_SCAN_STATUS STATUS_FAILED,
              Event.tagWrite (mvKey mv) HL_SCAN_MESSAGE "Scan job timed out",
              Event.tagWrite (mvKey mv) HL_SCAN_UPDATED_AT (isoformat now)] })
      ∧ (¬(now - t > tmo * 60) → handle_job_timeouts now w [mv] tmo = Except.ok w)
      ∧ tagGet (reapedTagMap m now) HL_SCAN_RUN_ID = tagGet m HL_SCAN_RUN_ID
      ∧ tagGet (reapedTagMap m now) HL_SCAN_STATUS = some STATUS_FAILED
      ∧ tagGet (reapedTagMap m now) HL_SCAN_MESSAGE = some "Scan job timed out"
      ∧ tagGet (reapedTagMap m now) HL_SCAN_UPDATED_AT = some (isoformat now)
      ∧ ∀ k, k ≠ HL_SCAN_RUN_ID → k ≠ HL_SCAN_STATUS → k ≠ HL_SCAN_MESSAGE →
          k ≠ HL_SCAN_UPDATED_AT → tagGet (reapedTagMap m now) k = none) := by
  intro now tmo w mv m s t h1 htags hst hupd hparse
  refine ⟨?_, ?_, ?_, ?_, ?_, ?_, ?_⟩
  · intro hexp
    rw [handle_job_timeouts_singleton,
      reapOne_expired now tmo w mv m s t htags hst hupd hparse hexp]
    congr 1
    simp [clear_tags, set_model_version_tag, h1, clearTagMap_eq_filter, reapedTagMap,
      regGetTags_regSetTags_self, regSetTags_regSetTags, List.append_assoc]
  · intro hexp
    rw [handle_job_timeouts_singleton,
      reapOne_fresh now tmo w mv m s t htags hst hupd hparse hexp]
  · unfold reapedTagMap
    rw [tagGet_tagSet, if_neg ne_run_updated, tagGet_tagSet, if_neg ne_run_message,
      tagGet_tagSet, if_neg ne_run_status, tagGet_filter_key]
    simp
  · unfold reapedTagMap
    rw [tagGet_tagSet, if_neg ne_status_updated, tagGet_tagSet, if_neg ne_status_message,
      tagGet_tagSet, if_pos rfl]
  · unfold reapedTagMap
    rw [tagGet_tagSet, if_neg ne_message_updated, tagGet_tagSet, if_pos rfl]
  · unfold reapedTagMap
    rw [tagGet_tagSet, if_pos rfl]
  · intro k hk1 hk2 hk3 hk4
    unfold reapedTagMap
    rw [tagGet_tagSet, if_neg hk4, tagGet_tagSet, if_neg hk3, tagGet_tagSet, if_neg hk2,
      tagGet_filter_key]
    have : ¬(HL_SCAN_RUN_ID = k) := fun h => hk1 h.symm
    simp [this]
    exact fun h => absurd h hk1

/-- A registry with a single pending model version, tagged at time 100 with
run id 7, for the C8 witness. -/
def c8TagMap : TagMap :=
  [(HL_SCAN_STATUS, "pending"), (HL_SCAN_UPDATED_AT, "100"), (HL_SCAN_RUN_ID, "7")]

/-- The C8 witness world. -/
def c8World : World :=
  { reg := { models := [("c.s.m", [1])],
             tags := fun k => if k = ("c.s.m", 1) then c8TagMap else [] },
    initMarker := true, nextRunId := 0, events := [] }

/-- The pending model version of the C8 witness. -/
def c8mv : ModelVersion := { name := "c.s.m", version := 1, tags := some c8TagMap }

/-- C8 witness: with a one-minute timeout, at `now = 200` (elapsed 100 s
> 60 s) the entry is reaped and keeps run id 7; at `now = 160` (elapsed
exactly 60 s) the world is untouched, exhibiting the strict tie-break. -/
theorem c8_reaper_strict_timeout_witness :
    handle_job_timeouts 200 c8World [c8mv] 1 = Except.ok
      { c8World with
        reg := regSetTags c8World.reg ("c.s.m", 1) (reapedTagMap c8TagMap 200),
        events := [Event.tagClear ("c.s.m", 1) [HL_SCAN_RUN_ID],
          Event.tagWrite ("c.s.m", 1) HL_SCAN_STATUS STATUS_FAILED,
          Event.tagWrite ("c.s.m", 1) HL_SCAN_MESSAGE "Scan job timed out",
          Event.tagWrite ("c.s.m", 1) HL_SCAN_UPDATED_AT (isoformat 200)] }
    ∧ tagGet (reapedTagMap c8TagMap 200) HL_SCAN_RUN_ID = some "7"
    ∧ handle_job_timeouts 160 c8World [c8mv] 1 = Except.ok c8World := by
  have h := c8_reaper_strict_timeout 200 1 c8World c8mv c8TagMap "100" 100 rfl rfl rfl rfl rfl
  have h2 := c8_reaper_strict_timeout 160 1 c8World c8mv c8TagMap "100" 100 rfl rfl rfl rfl rfl
  exact ⟨h.1 (by decide), (h.2.2.1).trans (by rfl), h2.2.1 (by decide)⟩

/-- C2 amended: under an existing init marker, a poll cycle runs the
Timeout Reaper only when the snapshot's none bucket (new, untagged
artifacts) is nonempty: with zero new artifacts the notebook exits early
with its registry and trace untouched apart from the exit message
(hl_monitor_models.py lines 413-415 run before line 429), and with at
least one new artifact every completed cycle's trace records the reaper
call. -/
theorem c2_reaper_only_with_new_models :
    ∀ (now : Int) (w : World), w.initMarker = true →
    (((get_model_versions_by_status w.reg [STATUS_NONE, STATUS_PENDING]) STATUS_NONE = [] →
       pollCycle now w = Except.ok { w with events := w.events
         ++ [Event.exitEarly "There are no new model versions to scan."] })
    ∧ (∀ w', (get_model_versions_by_status w.reg [STATUS_NONE, STATUS_PENDING]) STATUS_NONE ≠ [] →
        pollCycle now w = Except.ok w' → Event.reaperRun ∈ w'.events)) := by
  intro now w hmark
  constructor
  · intro hempty
    rw [pollCycle_exit now w hempty]
    simp [postInitWorld, hmark]
  · intro w' hne hok
    rw [pollCycle_run now w hne] at hok
    refine handle_job_timeouts_events_mono _ _ _ _ _ hok _ ?_
    simp [preReapWorld]

/-- A scope whose only artifact is a long-expired pending scan, with no new
(untagged) artifacts. -/
def c2World : World :=
  { reg := { models := [("c.s.m", [1])],
             tags := fun k =>
               if k = ("c.s.m", 1) then
                 [(HL_SCAN_STATUS, "pending"), (HL_SCAN_UPDATED_AT, "100")]
               else [] },
    initMarker := true, nextRunId := 0, events := [] }

/-- A scope with one untagged artifact and one fresh pending artifact. -/
def c2bWorld : World :=
  { reg := { models := [("c.s.m", [1]), ("c.s.n", [1])],
             tags := fun k =>
               if k = ("c.s.m", 1) then
                 [(HL_SCAN_STATUS, "pending"), (HL_SCAN_UPDATED_AT, "100")]
               else [] },
    initMarker := true, nextRunId := 0, events := [] }

/-- The world produced by one poll cycle over `c2bWorld`. -/
def c2bResult : World :=
  match pollCycle 200 c2bWorld with
  | Except.ok w => w
  | Except.error _ => c2bWorld

/-- C2 witness: both conclusions of `c2_reaper_only_with_new_models` at
concrete scopes — the zero-new-artifacts cycle exits early, and the cycle
with one new artifact records the reaper call. -/
theorem c2_reaper_only_with_new_models_witness :
    pollCycle 1000000 c2World = Except.ok { c2World with
      events := [Event.exitEarly "There are no new model versions to scan."] }
    ∧ Event.reaperRun ∈ c2bResult.events := by
  constructor
  · exact (c2_reaper_only_with_new_models 1000000 c2World rfl).1 rfl
  · exact (c2_reaper_only_with_new_models 200 c2bWorld rfl).2 c2bResult (by decide) rfl

/-- C2 counterexample: a cycle with zero new artifacts and one pending
artifact whose scan expired long ago: the cycle exits before
`handle_job_timeouts`, leaving the expired entry pending and recording no
reaper call — the claim says the Timeout Reaper runs every cycle. -/
theorem c2_counterexample :
    tagGetD (regGetTags c2World.reg ("c.s.m", 1)) HL_SCAN_STATUS STATUS_NONE = STATUS_PENDING
    ∧ (1000000 : Int) - 100 > HL_SCAN_NOTEBOOK_TIMEOUT_MINS * 60
    ∧ pollCycle 1000000 c2World = Except.ok { c2World with
        events := [Event.exitEarly "There are no new model versions to scan."] }
    ∧ Event.reaperRun ∉ [Event.exitEarly "There are no new model versions to scan."] := by
  refine ⟨rfl, by decide, rfl, by decide⟩

/-- C1 amended: the Scheduler's candidate set is the none bucket of the
poll snapshot (artifacts with no scan_status tag), not the unscanned
bucket: a completed poll cycle leaves every artifact whose registry status
is `unscanned` with unchanged tags and submits no scan for it — unscanned
artifacts left behind by a capped first cycle are never admitted by later
cycles, because the snapshot only requests the none and pending buckets and
candidates are drawn from the none bucket. -/
theorem c1_unscanned_never_admitted :
    ∀ (now : Int) (w w' : World) (key : MVKey),
    pollCycle now w = Except.ok w' →
    tagGetD (regGetTags w.reg key) HL_SCAN_STATUS STATUS_NONE = STATUS_UNSCANNED →
    regGetTags w'.reg key = regGetTags w.reg key
    ∧ (key ∈ submittedKeys w'.events ↔ key ∈ submittedKeys w.events) := by
  intro now w w' key hok hst
  have hne_none : tagGetD (regGetTags w.reg key) HL_SCAN_STATUS STATUS_NONE ≠ STATUS_NONE := by
    rw [hst]; decide
  have hne_pending : tagGetD (regGetTags w.reg key) HL_SCAN_STATUS STATUS_NONE
      ≠ STATUS_PENDING := by
    rw [hst]; decide
  have hinit : ∀ mv ∈ (get_model_versions_by_status w.reg []) STATUS_NONE, key ≠ mvKey mv :=
    fun mv hmv => bucket_key_ne w.reg [] STATUS_NONE key mv hmv hne_none
  have hpostinit : regGetTags (postInitWorld now w).reg key = regGetTags w.reg key := by
    simp only [postInitWorld]
    by_cases hm : w.initMarker
    · rw [if_pos hm]
    · rw [if_neg (by simpa using hm)]
      exact init_frame now w key hinit
  have hpostinit_sub : submittedKeys (postInitWorld now w).events = submittedKeys w.events := by
    simp only [postInitWorld]
    by_cases hm : w.initMarker
    · rw [if_pos hm]
    · rw [if_neg (by simpa using hm), init_submittedKeys]
  by_cases hempty :
      (get_model_versions_by_status w.reg [STATUS_NONE, STATUS_PENDING]) STATUS_NONE = []
  · rw [pollCycle_exit now w hempty] at hok
    have hw' : w' = { postInitWorld now w with
        events := (postInitWorld now w).events
          ++ [Event.exitEarly "There are no new model versions to scan."] } := by
      cases hok
      rfl
    subst hw'
    refine ⟨hpostinit, ?_⟩
    have hsub : submittedKeys ((postInitWorld now w).events
        ++ [Event.exitEarly "There are no new model versions to scan."])
          = submittedKeys w.events := by
      rw [submittedKeys_append]
      have h0 : submittedKeys [Event.exitEarly "There are no new model versions to scan."]
          = [] := rfl
      rw [h0, List.append_nil, hpostinit_sub]
    show key ∈ submittedKeys ((postInitWorld now w).events ++ _) ↔ _
    rw [hsub]
  · rw [pollCycle_run now w hempty] at hok
    obtain ⟨⟨t, hev, hsubt⟩, hframe, _, _⟩ :=
      handle_job_timeouts_ok now
        ((get_model_versions_by_status w.reg [STATUS_NONE, STATUS_PENDING]) STATUS_PENDING)
        HL_SCAN_NOTEBOOK_TIMEOUT_MINS (preReapWorld now w) w' hok
    have hpend_ne : ∀ mv ∈ (get_model_versions_by_status w.reg
        [STATUS_NONE, STATUS_PENDING]) STATUS_PENDING, key ≠ mvKey mv :=
      fun mv hmv =>
        bucket_key_ne w.reg [STATUS_NONE, STATUS_PENDING] STATUS_PENDING key mv hmv hne_pending
    have hadm_ne : ∀ mv ∈ admittedJobs w, key ≠ mvKey mv := by
      intro mv hmv
      have hmem : mv ∈ (get_model_versions_by_status w.reg
          [STATUS_NONE, STATUS_PENDING]) STATUS_NONE :=
        mem_pickNewJobs _ _ _ mv hmv
      exact bucket_key_ne w.reg [STATUS_NONE, STATUS_PENDING] STATUS_NONE key mv hmem hne_none
    constructor
    · rw [hframe key hpend_ne]
      exact preReapWorld_frame now w key hinit hadm_ne
    · have hkeys : submittedKeys w'.events
          = submittedKeys w.events ++ (admittedJobs w).map mvKey := by
        rw [hev, submittedKeys_append, hsubt, List.append_nil, submittedKeys_preReapWorld]
      rw [hkeys]
      have hnotin : key ∉ (admittedJobs w).map mvKey := by
        intro hmem
        obtain ⟨mv, hmv, hkey⟩ := List.mem_map.mp hmem
        exact hadm_ne mv hmv hkey.symm
      simp [List.mem_append, hnotin]

/-- A scope with one unscanned artifact and one untagged artifact, init
marker present: the cycle admits the untagged one and must leave the
unscanned one alone. -/
def c1World : World :=
  { reg := { models := [("c.s.u", [1]), ("c.s.n", [1])],
             tags := fun k =>
               if k = ("c.s.u", 1) then [(HL_SCAN_STATUS, "unscanned")] else [] },
    initMarker := true, nextRunId := 0, events := [] }

/-- The world produced by one poll cycle over `c1World`. -/
def c1Result : World :=
  match pollCycle 5 c1World with
  | Except.ok w => w
  | Except.error _ => c1World

/-- C1 witness: the conclusions of `c1_unscanned_never_admitted` evaluated
on a cycle that admits a new artifact while an unscanned artifact sits in
scope. -/
theorem c1_unscanned_never_admitted_witness :
    regGetTags c1Result.reg ("c.s.u", 1) = regGetTags c1World.reg ("c.s.u", 1)
    ∧ (("c.s.u", 1) ∈ submittedKeys c1Result.events
        ↔ ("c.s.u", 1) ∈ submittedKeys c1World.events) :=
  c1_unscanned_never_admitted 5 c1World c1Result ("c.s.u", 1) rfl rfl

/-- A scope whose only artifact is tagged unscanned, with the init marker
present and zero active scan jobs. -/
def c1xWorld : World :=
  { reg := { models := [("c.s.u", [1])],
             tags := fun k =>
               if k = ("c.s.u", 1) then [(HL_SCAN_STATUS, "unscanned")] else [] },
    initMarker := true, nextRunId := 0, events := [] }

/-- C1 counterexample: an artifact in status unscanned with all ten
concurrency slots free is not admitted — the poll cycle exits early,
submits nothing, and leaves it unscanned, contradicting the claim that
unscanned artifacts are admitted once capacity frees up. -/
theorem c1_counterexample :
    tagGetD (regGetTags c1xWorld.reg ("c.s.u", 1)) HL_SCAN_STATUS STATUS_NONE = STATUS_UNSCANNED
    ∧ ((get_model_versions_by_status c1xWorld.reg [STATUS_NONE, STATUS_PENDING])
        STATUS_PENDING).length = 0
    ∧ pollCycle 5 c1xWorld = Except.ok { c1xWorld with
        events := [Event.exitEarly "There are no new model versions to scan."] }
    ∧ submittedKeys [Event.exitEarly "There are no new model versions to scan."] = [] :=
  ⟨rfl, rfl, rfl, rfl⟩

/-- C10: a poll cycle snapshots once, over the pre-init registry `w.reg`
(hl_monitor_models.py line 406, before lines 409-410 run `init`), and both
downstream consumers read that snapshot: every completed cycle's submitted
scans are exactly the admitted prefix of the none bucket of the pre-init
snapshot (`admittedJobs`), even in cycles where the Initializer re-tags
those same artifacts in between; and whenever the cycle does not exit
early, it ends by reaping the pending bucket of that same pre-init
snapshot. Tag writes by the Initializer or by admission are therefore not
re-read within the cycle. -/
theorem c10_snapshot_taken_once :
    ∀ (now : Int) (w : World),
    (∀ w', pollCycle now w = Except.ok w' →
      submittedKeys w'.events = submittedKeys w.events ++ (admittedJobs w).map mvKey)
    ∧ ((get_model_versions_by_status w.reg [STATUS_NONE, STATUS_PENDING]) STATUS_NONE ≠ [] →
        pollCycle now w = handle_job_timeouts now (preReapWorld now w)
          ((get_model_versions_by_status w.reg [STATUS_NONE, STATUS_PENDING]) STATUS_PENDING)
          HL_SCAN_NOTEBOOK_TIMEOUT_MINS) := by
  intro now w
  have hpostinit_sub : submittedKeys (postInitWorld now w).events = submittedKeys w.events := by
    simp only [postInitWorld]
    by_cases hm : w.initMarker
    · rw [if_pos hm]
    · rw [if_neg (by simpa using hm), init_submittedKeys]
  constructor
  · intro w' hok
    by_cases hempty :
        (get_model_versions_by_status w.reg [STATUS_NONE, STATUS_PENDING]) STATUS_NONE = []
    · rw [pollCycle_exit now w hempty] at hok
      have hw' : w' = { postInitWorld now w with
          events := (postInitWorld now w).events
            ++ [Event.exitEarly "There are no new model versions to scan."] } := by
        cases hok
        rfl
      subst hw'
      have hadm : admittedJobs w = [] := by
        unfold admittedJobs
        rw [hempty, pickNewJobs_nil]
      rw [hadm]
      show submittedKeys ((postInitWorld now w).events ++ _) = _
      rw [submittedKeys_append]
      have h0 : submittedKeys [Event.exitEarly "There are no new model versions to scan."]
          = [] := rfl
      rw [h0, List.append_nil, hpostinit_sub, List.map_nil, List.append_nil]
    · rw [pollCycle_run now w hempty] at hok
      obtain ⟨⟨t, hev, hsubt⟩, _, _, _⟩ :=
        handle_job_timeouts_ok now
          ((get_model_versions_by_status w.reg [STATUS_NONE, STATUS_PENDING]) STATUS_PENDING)
          HL_SCAN_NOTEBOOK_TIMEOUT_MINS (preReapWorld now w) w' hok
      rw [hev, submittedKeys_append, hsubt, List.append_nil, submittedKeys_preReapWorld]
  · intro hne
    exact pollCycle_run now w hne

/-- A scope where initialization has not happened yet: one untagged
artifact and one fresh pending artifact. The cycle will run `init` (tagging
the untagged artifact unscanned) and must still admit it from the stale
pre-init snapshot. -/
def c10World : World :=
  { reg := { models := [("c.s.n", [1]), ("c.s.p", [1])],
             tags := fun k =>
               if k = ("c.s.p", 1) then
                 [(HL_SCAN_STATUS, "pending"), (HL_SCAN_UPDATED_AT, "100")]
               else [] },
    initMarker := false, nextRunId := 0, events := [] }

/-- The world produced by one poll cycle over `c10World`. -/
def c10Result : World :=
  match pollCycle 200 c10World with
  | Except.ok w => w
  | Except.error _ => c10World

/-- C10 witness: on a cycle that runs the Initializer, the submitted scans
are still exactly the admitted prefix of the pre-init snapshot's none
bucket, and the cycle tail is the reaper applied to the pre-init pending
bucket. -/
theorem c10_snapshot_taken_once_witness :
    submittedKeys c10Result.events
      = submittedKeys c10World.events ++ (admittedJobs c10World).map mvKey
    ∧ pollCycle 200 c10World = handle_job_timeouts 200 (preReapWorld 200 c10World)
        ((get_model_versions_by_status c10World.reg [STATUS_NONE, STATUS_PENDING])
          STATUS_PENDING)
        HL_SCAN_NOTEBOOK_TIMEOUT_MINS :=
  ⟨(c10_snapshot_taken_once 200 c10World).1 c10Result rfl,
   (c10_snapshot_taken_once 200 c10World).2 (by decide)⟩

end HLScanner
